import Mathlib

/-!
Verification of the eBPF execve sensor
(src/sensor/ebpf: syscall_monitor.bpf.c, syscall_monitor.h, loader/syscall_loader.c).

The development shallowly embeds the three C translation units:
* the Event Record layout `struct syscall_event` (syscall_monitor.h);
* the in-kernel capture program `handle_execve` together with the helper
  `get_ppid_tgid` and the BPF helper semantics it relies on
  (`bpf_get_current_comm` = strscpy_pad, `bpf_core_read_user_str` =
  strncpy_from_user with zero-fill-on-fault, `bpf_ringbuf_reserve` /
  `bpf_ringbuf_submit`);
* the user-space consumer `main` / `handle_event` of syscall_loader.c,
  modelled as a poll loop driven by an explicit script of poll outcomes.

Machine integers are modelled as `Nat` with explicit `% 2 ^ 32` / `/ 2 ^ 32`
where the C code casts or shifts; byte buffers are `List Nat`.
-/

set_option maxRecDepth 8000

namespace SyscallMonitor

/-- `struct syscall_event` of syscall_monitor.h.  `comm` has capacity
`TASK_COMM_LEN = 16`, `filename` capacity `MAX_PATH_LEN = 256`; the byte
arrays are modelled as lists whose well-formed length is the capacity. -/
structure SyscallEvent where
  ts_ns : Nat
  pid : Nat
  ppid : Nat
  uid : Nat
  gid : Nat
  syscall_ret : Int
  comm : List Nat
  filename : List Nat
  deriving Repr, DecidableEq

/-- The kernel task pointed to by `real_parent`; the capture code only reads
its `tgid`. -/
structure TaskInfo where
  tgid : Nat
  deriving Repr, DecidableEq

/-- The calling `task_struct`, restricted to the fields the program touches:
`real_parent` (read by `get_ppid_tgid`), the syscall-level `parent` (present
in the kernel but never read by this program), and the 16-byte `comm`. -/
structure Task where
  real_parent : TaskInfo
  parent : TaskInfo
  comm : List Nat
  deriving Repr, DecidableEq

/-- The tracepoint context of one `sys_enter_execve` invocation: the values
the BPF helpers would return, the caller's user address space, and
`ctx->args[0]` (the untrusted filename pointer). -/
structure CaptureCtx where
  ktime_ns : Nat
  pid_tgid : Nat
  uid_gid : Nat
  task : Task
  userMem : Nat → Option Nat
  args0 : Nat

/-- `get_ppid_tgid` of syscall_monitor.bpf.c:
`BPF_CORE_READ(task, real_parent)` then `BPF_CORE_READ(parent, tgid)`. -/
def get_ppid_tgid (t : Task) : Nat :=
  t.real_parent.tgid

/-- Kernel semantics of `strncpy_from_user` as used by
`bpf_probe_read_user_str`: read bytes at `addr, addr+1, ...` until a NUL is
copied or `count` bytes have been copied; `none` models `-EFAULT` (some byte
before the terminator is unmapped). -/
def strncpyFromUser (mem : Nat → Option Nat) : Nat → Nat → Option (List Nat)
  | _, 0 => some []
  | addr, n + 1 =>
    match mem addr with
    | none => none
    | some b =>
      if b = 0 then some [0]
      else Option.map (fun s => b :: s) (strncpyFromUser mem (addr + 1) n)

/-- `bpf_core_read_user_str(&dst, size, src)` acting on the previous contents
`old` of the destination buffer: on fault the whole buffer is zero-filled
(the helper does `memset(dst, 0, size)` on error); on success the copied
bytes (with a forced NUL in the last slot when `size` bytes were copied
without finding one) overwrite the front of the buffer and the remaining
bytes keep their previous contents (the helper does not pad). -/
def bpf_core_read_user_str (mem : Nat → Option Nat) (addr size : Nat)
    (old : List Nat) : List Nat :=
  match strncpyFromUser mem addr size with
  | none => List.replicate size 0
  | some s =>
    let s' := if s.length = size then s.set (size - 1) 0 else s
    s' ++ old.drop s'.length

/-- `bpf_get_current_comm(&buf, size)`: kernel `strscpy_pad` of the task's
`comm` — copy at most `size - 1` bytes of the NUL-terminated source, then
pad the rest of the buffer with zeros. -/
def bpf_get_current_comm (taskComm : List Nat) (size : Nat) : List Nat :=
  let s := (taskComm.takeWhile (fun b => b ≠ 0)).take (size - 1)
  s ++ List.replicate (size - s.length) 0

/-- The Event Record that `handle_execve` builds inside a reserved ring
slot whose previous bytes are `stale` (`bpf_ringbuf_reserve` does not zero
the slot).  Field by field as in syscall_monitor.bpf.c: `ts_ns` from
`bpf_ktime_get_ns`, `pid` from the high half of `bpf_get_current_pid_tgid`,
`uid`/`gid` from the low/high halves of `bpf_get_current_uid_gid`, `ppid`
from `get_ppid_tgid`, `comm` via `bpf_get_current_comm`, `filename` via
`bpf_core_read_user_str` from `ctx->args[0]`.  `syscall_ret` is not
assigned. -/
def capturedRecord (ctx : CaptureCtx) (stale : SyscallEvent) : SyscallEvent :=
  { stale with
      ts_ns := ctx.ktime_ns
      pid := ctx.pid_tgid / 2 ^ 32 % 2 ^ 32
      uid := ctx.uid_gid % 2 ^ 32
      gid := ctx.uid_gid / 2 ^ 32 % 2 ^ 32
      ppid := get_ppid_tgid ctx.task
      comm := bpf_get_current_comm ctx.task.comm 16
      filename := bpf_core_read_user_str ctx.userMem ctx.args0 256 stale.filename }

/-- The ring buffer map `events` as the producer sees it: `avail` counts the
slots a reservation can still take (`bpf_ringbuf_reserve` fails exactly when
it is zero), `slotStale` is the previous content of the next slot to be
reserved, and `committed` is the sequence of submitted records, in
submission order. -/
structure RingBuf where
  avail : Nat
  slotStale : SyscallEvent
  committed : List SyscallEvent
  deriving Repr, DecidableEq

/-- `handle_execve` of syscall_monitor.bpf.c: reserve a slot (on failure
`return 0` with nothing emitted), populate it, `bpf_ringbuf_submit`, and
`return 0`. -/
def handle_execve (ctx : CaptureCtx) (rb : RingBuf) : RingBuf × Int :=
  if rb.avail = 0 then (rb, 0)
  else
    ({ rb with
        avail := rb.avail - 1
        committed := rb.committed ++ [capturedRecord ctx rb.slotStale] }, 0)

/-- The fields of `struct syscall_event`, for stating which ones the capture
program writes. -/
inductive EventField where
  | ts_ns | pid | ppid | uid | gid | syscall_ret | comm | filename
  deriving Repr, DecidableEq

/-- The primitive ring-buffer operations `handle_execve` performs, in
program order. -/
inductive RbOp where
  | reserve (ok : Bool)
  | assign (f : EventField)
  | submit
  deriving Repr, DecidableEq

/-- The straight-line operation trace of `handle_execve`, by the outcome of
`bpf_ringbuf_reserve`: on failure only the failed reservation; on success
the reservation, the seven field assignments in source order, then the
submit.  No operation follows the submit and `syscall_ret` is never
assigned. -/
def handle_execve_ops (reserveOk : Bool) : List RbOp :=
  if reserveOk then
    [RbOp.reserve true, RbOp.assign EventField.ts_ns, RbOp.assign EventField.pid,
     RbOp.assign EventField.uid, RbOp.assign EventField.gid,
     RbOp.assign EventField.ppid, RbOp.assign EventField.comm,
     RbOp.assign EventField.filename, RbOp.submit]
  else [RbOp.reserve false]

/-- Bytes of a C string: the buffer content up to (not including) the first
NUL, as `printf("%s", ...)` reads it. -/
def cString (l : List Nat) : List Nat :=
  l.takeWhile (fun b => b ≠ 0)

/-- Render a byte list as the characters `printf` would emit. -/
def bytesToString (l : List Nat) : String :=
  String.mk (l.map Char.ofNat)

/-- `handle_event` of syscall_loader.c: format one record as the single
JSON line written to stdout, fields in the printf order with the fixed
`"syscall":"execve"` tag. -/
def handle_event (e : SyscallEvent) : String :=
  "\x7b\"ts_ns\":" ++ toString e.ts_ns ++
  ",\"pid\":" ++ toString e.pid ++
  ",\"ppid\":" ++ toString e.ppid ++
  ",\"uid\":" ++ toString e.uid ++
  ",\"gid\":" ++ toString e.gid ++
  ",\"comm\":\"" ++ bytesToString (cString e.comm) ++
  "\",\"filename\":\"" ++ bytesToString (cString e.filename) ++
  "\",\"syscall\":\"execve\"\x7d"

/-- Outcome of one `ring_buffer__poll(rb, 200)` call, from the loop's point
of view: `ok` — the poll returned the (non-negative) number of records it
consumed, having drained everything available; `eintr` — the poll was
interrupted by a signal and returned `-EINTR` (= -4) without consuming;
`fail c` — the poll returned some other negative error `c`. -/
inductive PollOut where
  | ok
  | eintr
  | fail (c : Int)
  deriving Repr, DecidableEq

/-- One iteration of the consumer loop: `arrivals` are the records committed
to the ring since the previous consumption, `out` is what this
`ring_buffer__poll` call did. -/
structure PollStep where
  arrivals : List SyscallEvent
  out : PollOut
  deriving Repr, DecidableEq

/-- State of the consumer process when it exits: the stdout lines produced
by `handle_event`, the process exit status (`return err < 0 ? 1 : 0`), the
records still sitting unconsumed in the ring buffer (freed, not drained),
and the stderr messages. -/
structure LoopExit where
  lines : List String
  status : Nat
  pending : List SyscallEvent
  errs : List String
  deriving Repr, DecidableEq

/-- The `while (!stop)` poll loop of syscall_loader.c `main`.  The script
lists the iterations run before `stop` is observed true; `finalArr` are
records committed after the last poll consumed and before the loop exits.
`.ok`: the callback emitted one line per available record and `err` became
the consumed count; the loop continues.  `.eintr`: `err = -EINTR`, `break`
(no log), then `return err < 0 ? 1 : 0`.  `.fail c`: log
`ring_buffer__poll error`, `break`, same return.  When the script is
exhausted, `stop` is seen true and the loop falls through to cleanup with
the last `err`. -/
def pollLoop (pending : List SyscallEvent) (lines errs : List String)
    (err : Int) (finalArr : List SyscallEvent) :
    List PollStep → LoopExit
  | [] =>
    { lines := lines
      status := if err < 0 then 1 else 0
      pending := pending ++ finalArr
      errs := errs }
  | step :: rest =>
    match step.out with
    | PollOut.ok =>
      pollLoop [] (lines ++ (pending ++ step.arrivals).map handle_event) errs
        ((pending ++ step.arrivals).length : Int) finalArr rest
    | PollOut.eintr =>
      { lines := lines
        status := if (-4 : Int) < 0 then 1 else 0
        pending := pending ++ step.arrivals
        errs := errs }
    | PollOut.fail c =>
      { lines := lines
        status := if c < 0 then 1 else 0
        pending := pending ++ step.arrivals
        errs := errs ++ ["ring_buffer__poll error"] }

/-- The records the poll loop consumes (and hands to `handle_event`) given
the initial backlog and the script, in consumption order. -/
def consumedEvents (pending : List SyscallEvent) : List PollStep → List SyscallEvent
  | [] => []
  | step :: rest =>
    match step.out with
    | PollOut.ok => (pending ++ step.arrivals) ++ consumedEvents [] rest
    | _ => []

/-- Outcomes of the four setup steps of `main`: `syscall_monitor_bpf__open`
(NULL or not), `__load` and `__attach` (0 on success, negative errno on
failure), `ring_buffer__new` (NULL or not). -/
structure SetupIn where
  openOk : Bool
  loadRet : Int
  attachRet : Int
  rbOk : Bool
  deriving Repr, DecidableEq

/-- What the consumer process did: stderr messages, stdout lines, exit
status, and the records left unconsumed in the ring when it exited. -/
structure MainExit where
  errs : List String
  lines : List String
  status : Nat
  pending : List SyscallEvent
  deriving Repr, DecidableEq

/-- `main` of syscall_loader.c.  Open failure: report and `return 1`.  Load
or attach failure: report, `goto cleanup` with `err` = the negative return,
exit `err < 0 ? 1 : 0`.  Ring-buffer creation failure: report, set
`err = 1`, `goto cleanup`, exit `err < 0 ? 1 : 0` (which is 0 — the code
as written).  Otherwise run the poll loop with `err = 0`. -/
def mainRun (s : SetupIn) (script : List PollStep)
    (finalArr : List SyscallEvent) : MainExit :=
  if !s.openOk then
    { errs := ["failed to open BPF skeleton"], lines := [], status := 1, pending := [] }
  else if s.loadRet ≠ 0 then
    { errs := ["failed to load BPF skeleton"], lines := []
      status := if s.loadRet < 0 then 1 else 0, pending := [] }
  else if s.attachRet ≠ 0 then
    { errs := ["failed to attach BPF programs"], lines := []
      status := if s.attachRet < 0 then 1 else 0, pending := [] }
  else if !s.rbOk then
    { errs := ["failed to create ring buffer"], lines := []
      status := if (1 : Int) < 0 then 1 else 0, pending := [] }
  else
    let r := pollLoop [] [] [] 0 finalArr script
    { errs := r.errs, lines := r.lines, status := r.status, pending := r.pending }

/-! Concrete sample inputs used by witnesses and counterexamples. -/

/-- A tiny user address space: the NUL-terminated string "a" at address
1000, everything else unmapped. -/
def memA : Nat → Option Nat := fun a =>
  if a = 1000 then some 97 else if a = 1001 then some 0 else none

/-- A fully unmapped user address space. -/
def memBad : Nat → Option Nat := fun _ => none

/-- A sample calling task: real parent tgid 1, syscall-level parent tgid 42
(differing from the real parent), comm "sh". -/
def task0 : Task :=
  { real_parent := { tgid := 1 }, parent := { tgid := 42 }, comm := [115, 104, 0] }

/-- A sample capture context: pid 100 (high half of `pid_tgid`), uid 0,
gid 0, filename pointer 1000 into `memA`. -/
def ctx0 : CaptureCtx :=
  { ktime_ns := 111, pid_tgid := 100 * 2 ^ 32, uid_gid := 0, task := task0
    userMem := memA, args0 := 1000 }

/-- `ctx0` with an invalid (fully unmapped) filename pointer. -/
def ctxBad : CaptureCtx :=
  { ctx0 with userMem := memBad }

/-- Stale slot bytes with `syscall_ret = 7` and a filename buffer full of
9s. -/
def staleA : SyscallEvent :=
  { ts_ns := 0, pid := 0, ppid := 0, uid := 0, gid := 0, syscall_ret := 7
    comm := List.replicate 16 0, filename := List.replicate 256 9 }

/-- Stale slot bytes with `syscall_ret = 5` and a zeroed filename buffer. -/
def staleB : SyscallEvent :=
  { ts_ns := 0, pid := 0, ppid := 0, uid := 0, gid := 0, syscall_ret := 5
    comm := List.replicate 16 0, filename := List.replicate 256 0 }

/-- A full ring buffer (no slot available). -/
def rbFull : RingBuf :=
  { avail := 0, slotStale := staleB, committed := [] }

/-- A ring buffer with one free slot whose stale bytes are `staleA`. -/
def rbA : RingBuf :=
  { avail := 1, slotStale := staleA, committed := [] }

/-- A ring buffer with one free slot whose stale bytes are `staleB`. -/
def rbB : RingBuf :=
  { avail := 1, slotStale := staleB, committed := [] }

/-- A sample committed Event Record (as the end-to-end spec scenario:
pid 100, ppid 1, uid 0, gid 0, comm "sh", filename "/bin/sh"). -/
def sampleEvent : SyscallEvent :=
  { ts_ns := 111, pid := 100, ppid := 1, uid := 0, gid := 0, syscall_ret := 0
    comm := [115, 104] ++ List.replicate 14 0
    filename := [47, 98, 105, 110, 47, 115, 104, 0] ++ List.replicate 248 0 }

/-! Helper lemmas about the copy helpers and the poll loop. -/

/-- Structure of a successful `strncpy_from_user`: at most `n` bytes, a NUL
terminator whenever fewer than `n` bytes were copied, no NUL before the last
byte, and a nonempty result when `n > 0`. -/
theorem strncpy_spec (mem : Nat → Option Nat) :
    ∀ (n addr : Nat) (s : List Nat), strncpyFromUser mem addr n = some s →
      s.length ≤ n ∧ (s.length < n → s.getLast? = some 0) ∧
      (∀ x ∈ s.dropLast, x ≠ 0) ∧ (0 < n → s ≠ []) := by
  intro n
  induction n with
  | zero =>
    intro addr s h
    simp only [strncpyFromUser, Option.some.injEq] at h
    subst h
    simp
  | succ n ih =>
    intro addr s h
    rw [strncpyFromUser] at h
    split at h
    · exact absurd h (by simp)
    · rename_i b heq
      by_cases hb : b = 0
      · rw [if_pos hb] at h
        simp only [Option.some.injEq] at h
        subst h
        subst hb
        refine ⟨by simp, by simp, by simp, by simp⟩
      · rw [if_neg hb] at h
        cases hrec : strncpyFromUser mem (addr + 1) n with
        | none => rw [hrec] at h; exact absurd h (by simp)
        | some t =>
          rw [hrec] at h
          simp only [Option.map_some', Option.some.injEq] at h
          subst h
          obtain ⟨h1, h2, h3, h4⟩ := ih (addr + 1) t hrec
          refine ⟨by simpa using h1, ?_, ?_, by simp⟩
          · intro hlt
            have ht : t.length < n := by simpa using hlt
            have hg := h2 ht
            cases t with
            | nil => simp at hg
            | cons c u => rw [List.getLast?_cons_cons]; exact hg
          · intro x hx
            cases t with
            | nil => simp at hx
            | cons c u =>
              rw [List.dropLast_cons₂] at hx
              rcases List.mem_cons.mp hx with hxb | hxt
              · exact hxb ▸ hb
              · exact h3 x hxt

/-- Unfolding `bpf_core_read_user_str` on a faulting read. -/
theorem read_user_str_of_fault (mem : Nat → Option Nat) (addr size : Nat)
    (old : List Nat) (h : strncpyFromUser mem addr size = none) :
    bpf_core_read_user_str mem addr size old = List.replicate size 0 := by
  unfold bpf_core_read_user_str
  rw [h]

/-- Unfolding `bpf_core_read_user_str` on a successful read. -/
theorem read_user_str_of_copy (mem : Nat → Option Nat) (addr size : Nat)
    (old s : List Nat) (h : strncpyFromUser mem addr size = some s) :
    bpf_core_read_user_str mem addr size old =
      (if s.length = size then s.set (size - 1) 0 else s) ++
        old.drop (if s.length = size then s.set (size - 1) 0 else s).length := by
  unfold bpf_core_read_user_str
  rw [h]

/-- `bpf_core_read_user_str` fills exactly the fixed-capacity buffer: the
destination keeps its length. -/
theorem read_user_str_length (mem : Nat → Option Nat) (addr size : Nat)
    (old : List Nat) (h : old.length = size) :
    (bpf_core_read_user_str mem addr size old).length = size := by
  cases hs : strncpyFromUser mem addr size with
  | none => rw [read_user_str_of_fault mem addr size old hs]; simp
  | some s =>
    rw [read_user_str_of_copy mem addr size old s hs]
    obtain ⟨h1, _, _, _⟩ := strncpy_spec mem size addr s hs
    by_cases hl : s.length = size
    · rw [if_pos hl]
      rw [List.length_append, List.length_set, List.length_drop]
      omega
    · rw [if_neg hl]
      rw [List.length_append, List.length_drop, h]
      omega

/-- `bpf_core_read_user_str` always leaves a NUL terminator inside the
capacity. -/
theorem read_user_str_terminator (mem : Nat → Option Nat) (addr size : Nat)
    (old : List Nat) (hsz : 0 < size) :
    ∃ i, i < size ∧ (bpf_core_read_user_str mem addr size old)[i]? = some 0 := by
  cases hs : strncpyFromUser mem addr size with
  | none =>
    rw [read_user_str_of_fault mem addr size old hs]
    exact ⟨0, hsz, by simp [List.getElem?_replicate, hsz]⟩
  | some s =>
    rw [read_user_str_of_copy mem addr size old s hs]
    obtain ⟨h1, h2, h3, h4⟩ := strncpy_spec mem size addr s hs
    by_cases hl : s.length = size
    · refine ⟨size - 1, by omega, ?_⟩
      rw [if_pos hl]
      rw [List.getElem?_append_left (by rw [List.length_set, hl]; omega)]
      rw [List.getElem?_eq_getElem (by rw [List.length_set, hl]; omega)]
      rw [List.getElem_set_self]
    · have hlt : s.length < size := lt_of_le_of_ne h1 hl
      have hne : s ≠ [] := h4 hsz
      have hg := h2 hlt
      refine ⟨s.length - 1, by omega, ?_⟩
      rw [if_neg hl]
      rw [List.getElem?_append_left (by have := List.length_pos.mpr hne; omega)]
      rw [← List.getLast?_eq_getElem?]
      exact hg

/-- Writing at the last position of a nonempty list replaces its last
element. -/
theorem set_last_eq {α : Type} (l : List α) (a : α) (h : l ≠ []) :
    l.set (l.length - 1) a = l.dropLast ++ [a] := by
  induction l with
  | nil => exact absurd rfl h
  | cons b t ih =>
    cases t with
    | nil => rfl
    | cons c u =>
      have hlen : (b :: c :: u).length - 1 = (c :: u).length - 1 + 1 := by simp
      rw [hlen, List.set_cons_succ, ih (by simp), List.dropLast_cons₂]
      rfl

/-- `takeWhile` walks through a prefix all of whose elements satisfy the
predicate. -/
theorem takeWhile_all_append {α : Type} (p : α → Bool) (l r : List α)
    (hl : ∀ x ∈ l, p x = true) : (l ++ r).takeWhile p = l ++ r.takeWhile p := by
  rw [List.takeWhile_append]
  rw [if_pos]
  rw [List.takeWhile_eq_self_iff.mpr hl]

/-- The C-string content of the buffer written by `bpf_core_read_user_str`
depends only on the user memory, never on the previous buffer bytes: it is
the copied bytes without the terminator, or empty on fault. -/
theorem cString_read_user_str (mem : Nat → Option Nat) (addr size : Nat)
    (old : List Nat) (hsz : 0 < size) :
    cString (bpf_core_read_user_str mem addr size old) =
      Option.elim (strncpyFromUser mem addr size) [] List.dropLast := by
  cases hs : strncpyFromUser mem addr size with
  | none =>
    rw [read_user_str_of_fault mem addr size old hs]
    simp [cString, List.takeWhile_replicate]
  | some s =>
    rw [read_user_str_of_copy mem addr size old s hs]
    simp only [cString]
    obtain ⟨h1, h2, h3, h4⟩ := strncpy_spec mem size addr s hs
    have hne : s ≠ [] := h4 hsz
    by_cases hl : s.length = size
    · rw [if_pos hl]
      rw [← hl, set_last_eq s 0 hne, List.append_assoc]
      rw [takeWhile_all_append _ _ _ (fun x hx => by simpa using h3 x hx)]
      rw [List.singleton_append, List.takeWhile_cons_of_neg (by simp)]
      simp
    · rw [if_neg hl]
      have hlt : s.length < size := lt_of_le_of_ne h1 hl
      have hg := h2 hlt
      have hgl : s.getLast hne = 0 := by
        have hq := List.getLast?_eq_getLast s hne
        rw [hq] at hg
        exact Option.some.inj hg
      have hs0 : s.dropLast ++ [0] = s := by
        rw [← hgl]; exact List.dropLast_append_getLast hne
      rw [← hs0, List.append_assoc]
      rw [takeWhile_all_append _ _ _ (fun x hx => by simpa using h3 x hx)]
      rw [List.singleton_append, List.takeWhile_cons_of_neg (by simp)]
      simp

/-- `bpf_get_current_comm` fills exactly the 16-byte buffer. -/
theorem comm_length (c : List Nat) (size : Nat) :
    (bpf_get_current_comm c size).length = size := by
  simp only [bpf_get_current_comm]
  set s := (c.takeWhile fun b => b ≠ 0).take (size - 1) with hs
  rw [List.length_append, List.length_replicate]
  have h1 : s.length ≤ size - 1 := by
    rw [hs, List.length_take]
    exact Nat.min_le_left _ _
  omega

/-- `bpf_get_current_comm` always leaves a NUL terminator inside the
capacity. -/
theorem comm_terminator (c : List Nat) (size : Nat) (h : 0 < size) :
    ∃ i, i < size ∧ (bpf_get_current_comm c size)[i]? = some 0 := by
  simp only [bpf_get_current_comm]
  set s := (c.takeWhile fun b => b ≠ 0).take (size - 1) with hs
  have h1 : s.length ≤ size - 1 := by
    rw [hs, List.length_take]
    exact Nat.min_le_left _ _
  refine ⟨s.length, by omega, ?_⟩
  rw [List.getElem?_append_right (Nat.le_refl _), Nat.sub_self, List.getElem?_replicate]
  rw [if_pos (by omega)]

/-- The poll loop's stdout is the initial stdout followed by exactly one
`handle_event` line per consumed record, in consumption order. -/
theorem pollLoop_lines_eq (finalArr : List SyscallEvent) :
    ∀ (script : List PollStep) (pending : List SyscallEvent)
      (lines errs : List String) (err : Int),
      (pollLoop pending lines errs err finalArr script).lines =
        lines ++ (consumedEvents pending script).map handle_event := by
  intro script
  induction script with
  | nil => intro pending lines errs err; simp [pollLoop, consumedEvents]
  | cons step rest ih =>
    intro pending lines errs err
    obtain ⟨arr, out⟩ := step
    cases out with
    | ok =>
      simp only [pollLoop, consumedEvents]
      rw [ih]
      simp [List.map_append, List.append_assoc]
    | eintr => simp [pollLoop, consumedEvents]
    | fail c => simp [pollLoop, consumedEvents]

/-! Claim theorems. -/

/-- C1: for every captured event — any task comm, any user memory, so
truncation and read failure included — the `comm` (command_name) buffer is
exactly its 16-byte capacity with a NUL terminator inside it, and the
`filename` (path) buffer is exactly its 256-byte capacity with a NUL
terminator inside it: the bounded copies never write past the
capacities. -/
theorem execve_event_strings_bounded (ctx : CaptureCtx) (stale : SyscallEvent)
    (h : stale.filename.length = 256) :
    (capturedRecord ctx stale).comm.length = 16 ∧
    (∃ i, i < 16 ∧ (capturedRecord ctx stale).comm[i]? = some 0) ∧
    (capturedRecord ctx stale).filename.length = 256 ∧
    (∃ j, j < 256 ∧ (capturedRecord ctx stale).filename[j]? = some 0) := by
  refine ⟨?_, ?_, ?_, ?_⟩
  · exact comm_length ctx.task.comm 16
  · exact comm_terminator ctx.task.comm 16 (by decide)
  · exact read_user_str_length ctx.userMem ctx.args0 256 stale.filename h
  · exact read_user_str_terminator ctx.userMem ctx.args0 256 stale.filename (by decide)

/-- Witness for C1 at the concrete context `ctx0` and slot `staleB`. -/
theorem execve_event_strings_bounded_witness :
    staleB.filename.length = 256 ∧
    ((capturedRecord ctx0 staleB).comm.length = 16 ∧
     (∃ i, i < 16 ∧ (capturedRecord ctx0 staleB).comm[i]? = some 0) ∧
     (capturedRecord ctx0 staleB).filename.length = 256 ∧
     (∃ j, j < 256 ∧ (capturedRecord ctx0 staleB).filename[j]? = some 0)) :=
  ⟨by decide, execve_event_strings_bounded ctx0 staleB (by decide)⟩

/-- C2: when slot reservation fails (`bpf_ringbuf_reserve` returns NULL
because the channel is full) `handle_execve` returns 0 at once and the ring
state is unchanged — the event is silently dropped, nothing (in particular
no partial record) becomes visible to the consumer and no error
propagates. -/
theorem execve_full_drop (ctx : CaptureCtx) (rb : RingBuf) (h : rb.avail = 0) :
    handle_execve ctx rb = (rb, 0) := by
  simp [handle_execve, h]

/-- Witness for C2 at the concrete context `ctx0` and the full ring
`rbFull`. -/
theorem execve_full_drop_witness :
    rbFull.avail = 0 ∧ handle_execve ctx0 rbFull = (rbFull, 0) :=
  ⟨rfl, execve_full_drop ctx0 rbFull rfl⟩

/-- C3 counterexample: the published record is not fully populated and the
reader does see stale slot bytes — with identical capture context, the
committed record's `syscall_ret` is 7 or 5 and its filename byte 2 is 9 or
0 depending only on what the reserved (non-zeroed) slot previously
contained. -/
theorem execve_stale_bytes_published :
    (handle_execve ctx0 rbA).1.committed = [capturedRecord ctx0 staleA] ∧
    (capturedRecord ctx0 staleA).syscall_ret = 7 ∧
    (capturedRecord ctx0 staleB).syscall_ret = 5 ∧
    (capturedRecord ctx0 staleA).filename[2]? = some 9 ∧
    (capturedRecord ctx0 staleB).filename[2]? = some 0 :=
  ⟨rfl, rfl, rfl, rfl, rfl⟩

/-- C3 (amended): once the Capture Agent reserves a slot it populates every
field except `syscall_ret` and commits, with the commit as the last
operation (no mutation after it); a record is either fully built and
published in one step or not emitted at all (return value 0 either way);
the fields other than `syscall_ret`, and the filename's C-string content,
are determined by the capture context alone, while `syscall_ret` retains
the reserved slot's prior content. -/
theorem execve_commit_discipline (ctx : CaptureCtx) (rb : RingBuf) :
    ((handle_execve ctx rb).1.committed = rb.committed ∨
      (handle_execve ctx rb).1.committed =
        rb.committed ++ [capturedRecord ctx rb.slotStale]) ∧
    (handle_execve ctx rb).2 = 0 ∧
    (handle_execve_ops true).getLast? = some RbOp.submit ∧
    (∀ f : EventField,
      RbOp.assign f ∈ handle_execve_ops true ↔ f ≠ EventField.syscall_ret) ∧
    RbOp.submit ∉ handle_execve_ops false ∧
    (∀ stale stale' : SyscallEvent,
      (capturedRecord ctx stale).ts_ns = (capturedRecord ctx stale').ts_ns ∧
      (capturedRecord ctx stale).pid = (capturedRecord ctx stale').pid ∧
      (capturedRecord ctx stale).ppid = (capturedRecord ctx stale').ppid ∧
      (capturedRecord ctx stale).uid = (capturedRecord ctx stale').uid ∧
      (capturedRecord ctx stale).gid = (capturedRecord ctx stale').gid ∧
      (capturedRecord ctx stale).comm = (capturedRecord ctx stale').comm ∧
      cString (capturedRecord ctx stale).filename =
        cString (capturedRecord ctx stale').filename) ∧
    (∀ stale : SyscallEvent,
      (capturedRecord ctx stale).syscall_ret = stale.syscall_ret) := by
  refine ⟨?_, ?_, rfl, ?_, by decide, ?_, fun stale => rfl⟩
  · by_cases h : rb.avail = 0
    · left; simp [handle_execve, h]
    · right; simp [handle_execve, h]
  · by_cases h : rb.avail = 0 <;> simp [handle_execve, h]
  · intro f; cases f <;> decide
  · intro stale stale'
    refine ⟨rfl, rfl, rfl, rfl, rfl, rfl, ?_⟩
    show cString (bpf_core_read_user_str ctx.userMem ctx.args0 256 stale.filename) =
      cString (bpf_core_read_user_str ctx.userMem ctx.args0 256 stale'.filename)
    rw [cString_read_user_str ctx.userMem ctx.args0 256 stale.filename (by decide),
      cString_read_user_str ctx.userMem ctx.args0 256 stale'.filename (by decide)]

/-- C4: when the bounded user read faults (invalid or unmapped source
pointer), only the `path` field degrades — the filename buffer is recorded
zero-filled, i.e. the empty string — every other field is populated
normally, the record is still published and the capture returns 0: no
fault, no skipped record. -/
theorem execve_fault_degrades_path_only (ctx : CaptureCtx) (rb : RingBuf)
    (hfault : strncpyFromUser ctx.userMem ctx.args0 256 = none)
    (havail : rb.avail ≠ 0) :
    handle_execve ctx rb =
      ({ rb with
          avail := rb.avail - 1
          committed := rb.committed ++ [capturedRecord ctx rb.slotStale] }, 0) ∧
    (capturedRecord ctx rb.slotStale).filename = List.replicate 256 0 ∧
    cString (capturedRecord ctx rb.slotStale).filename = [] ∧
    (capturedRecord ctx rb.slotStale).ts_ns = ctx.ktime_ns ∧
    (capturedRecord ctx rb.slotStale).pid = ctx.pid_tgid / 2 ^ 32 % 2 ^ 32 ∧
    (capturedRecord ctx rb.slotStale).uid = ctx.uid_gid % 2 ^ 32 ∧
    (capturedRecord ctx rb.slotStale).gid = ctx.uid_gid / 2 ^ 32 % 2 ^ 32 ∧
    (capturedRecord ctx rb.slotStale).ppid = ctx.task.real_parent.tgid ∧
    (capturedRecord ctx rb.slotStale).comm = bpf_get_current_comm ctx.task.comm 16 := by
  refine ⟨by simp [handle_execve, havail], ?_, ?_, rfl, rfl, rfl, rfl, rfl, rfl⟩
  · show bpf_core_read_user_str ctx.userMem ctx.args0 256 rb.slotStale.filename =
      List.replicate 256 0
    exact read_user_str_of_fault ctx.userMem ctx.args0 256 rb.slotStale.filename hfault
  · show cString (bpf_core_read_user_str ctx.userMem ctx.args0 256
      rb.slotStale.filename) = []
    rw [read_user_str_of_fault ctx.userMem ctx.args0 256 rb.slotStale.filename hfault]
    simp [cString, List.takeWhile_replicate]

/-- Witness for C4 at the concrete context `ctxBad` (fully unmapped user
memory) and the ring `rbB`. -/
theorem execve_fault_degrades_path_only_witness :
    strncpyFromUser ctxBad.userMem ctxBad.args0 256 = none ∧ rbB.avail ≠ 0 ∧
    (handle_execve ctxBad rbB =
      ({ rbB with
          avail := rbB.avail - 1
          committed := rbB.committed ++ [capturedRecord ctxBad rbB.slotStale] }, 0) ∧
     (capturedRecord ctxBad rbB.slotStale).filename = List.replicate 256 0 ∧
     cString (capturedRecord ctxBad rbB.slotStale).filename = [] ∧
     (capturedRecord ctxBad rbB.slotStale).ts_ns = ctxBad.ktime_ns ∧
     (capturedRecord ctxBad rbB.slotStale).pid = ctxBad.pid_tgid / 2 ^ 32 % 2 ^ 32 ∧
     (capturedRecord ctxBad rbB.slotStale).uid = ctxBad.uid_gid % 2 ^ 32 ∧
     (capturedRecord ctxBad rbB.slotStale).gid = ctxBad.uid_gid / 2 ^ 32 % 2 ^ 32 ∧
     (capturedRecord ctxBad rbB.slotStale).ppid = ctxBad.task.real_parent.tgid ∧
     (capturedRecord ctxBad rbB.slotStale).comm =
       bpf_get_current_comm ctxBad.task.comm 16) :=
  ⟨rfl, by decide, execve_fault_degrades_path_only ctxBad rbB rfl (by decide)⟩

/-- C5: `parent_pid` is resolved by walking to the calling task's real
parent and reading that parent's tgid; it does not depend on the
caller-supplied syscall arguments or user memory, nor on the syscall-level
`parent` field, even when that immediate parent differs from the real
parent. -/
theorem execve_ppid_from_real_parent (ctx : CaptureCtx) (stale : SyscallEvent) :
    (capturedRecord ctx stale).ppid = ctx.task.real_parent.tgid ∧
    get_ppid_tgid ctx.task = ctx.task.real_parent.tgid ∧
    (∀ (p : TaskInfo) (m : Nat → Option Nat) (a : Nat),
      (capturedRecord
        { ctx with task := { ctx.task with parent := p }, userMem := m, args0 := a }
        stale).ppid = ctx.task.real_parent.tgid) :=
  ⟨rfl, rfl, fun p m a => rfl⟩

/-- C6 (the code at the failing input): a stop signal that interrupts the
blocking poll makes `ring_buffer__poll` return `-EINTR`; the loop breaks
with `err = -EINTR` still negative, so `return err < 0 ? 1 : 0` exits with
status 1 — not the clean zero status the claim requires. -/
theorem loader_eintr_exits_nonzero :
    (mainRun { openOk := true, loadRet := 0, attachRet := 0, rbOk := true }
      [{ arrivals := [], out := PollOut.eintr }] []).status = 1 := rfl

/-- C7 counterexample: `sampleEvent` is committed to the ring before the
stop signal is observed, yet the loop exits with the clean status 0 having
emitted no line for it and leaving it unconsumed in the (then freed) ring —
an event committed before the signal is lost on clean shutdown. -/
theorem loader_abandons_pending_on_stop :
    (mainRun { openOk := true, loadRet := 0, attachRet := 0, rbOk := true }
      [] [sampleEvent]).status = 0 ∧
    (mainRun { openOk := true, loadRet := 0, attachRet := 0, rbOk := true }
      [] [sampleEvent]).lines = [] ∧
    (mainRun { openOk := true, loadRet := 0, attachRet := 0, rbOk := true }
      [] [sampleEvent]).pending = [sampleEvent] :=
  ⟨rfl, rfl, rfl⟩

/-- C7 (amended): after the shutdown signal is observed the Consumer Loop
performs no further polls and exits at once; records already emitted stay
emitted, but records still unconsumed — including any committed before the
signal — are left in the ring, not drained. -/
theorem loader_stop_no_drain (pending : List SyscallEvent)
    (lines errs : List String) (err : Int) (finalArr : List SyscallEvent) :
    pollLoop pending lines errs err finalArr [] =
      { lines := lines, status := if err < 0 then 1 else 0
        pending := pending ++ finalArr, errs := errs } := rfl

/-- C8 (the code at the failing input): when `ring_buffer__new` fails the
loader prints its distinct message, but because the path sets `err = 1` and
`main` returns `err < 0 ? 1 : 0`, the process exits with status 0 instead
of the non-zero status the claim requires. -/
theorem loader_ringbuf_failure_exits_zero :
    (mainRun { openOk := true, loadRet := 0, attachRet := 0, rbOk := false }
      [] []).errs = ["failed to create ring buffer"] ∧
    (mainRun { openOk := true, loadRet := 0, attachRet := 0, rbOk := false }
      [] []).status = 0 :=
  ⟨rfl, rfl⟩

/-- C9: the Consumer Loop's stdout is exactly one `handle_event` line per
record surfaced by the channel, in order, none skipped and none filtered;
each line is the stable field set — the integers `ts_ns`, `pid`, `ppid`,
`uid`, `gid`, the strings `comm` and `filename` verbatim, and the fixed
literal execve tag. -/
theorem loader_one_line_per_record (pending : List SyscallEvent)
    (lines errs : List String) (err : Int) (finalArr : List SyscallEvent)
    (script : List PollStep) :
    (pollLoop pending lines errs err finalArr script).lines =
      lines ++ (consumedEvents pending script).map handle_event ∧
    (∀ e : SyscallEvent,
      handle_event e =
        "\x7b\"ts_ns\":" ++ toString e.ts_ns ++ ",\"pid\":" ++ toString e.pid ++
        ",\"ppid\":" ++ toString e.ppid ++ ",\"uid\":" ++ toString e.uid ++
        ",\"gid\":" ++ toString e.gid ++ ",\"comm\":\"" ++
        bytesToString (cString e.comm) ++ "\",\"filename\":\"" ++
        bytesToString (cString e.filename) ++ "\",\"syscall\":\"execve\"\x7d") :=
  ⟨pollLoop_lines_eq finalArr script pending lines errs err, fun e => rfl⟩

/-- C10: the record layout carries a `syscall_ret` field the capture path
never assigns: the published record keeps the reserved slot's prior value
there, the capture's operation trace assigns exactly the other seven
fields, and the consumer's output line is independent of `syscall_ret`. -/
theorem syscall_ret_never_written (ctx : CaptureCtx) (stale : SyscallEvent) :
    (capturedRecord ctx stale).syscall_ret = stale.syscall_ret ∧
    (∀ f : EventField,
      RbOp.assign f ∈ handle_execve_ops true ↔ f ≠ EventField.syscall_ret) ∧
    (∀ b : Bool, RbOp.assign EventField.syscall_ret ∉ handle_execve_ops b) ∧
    (∀ (e : SyscallEvent) (v : Int),
      handle_event { e with syscall_ret := v } = handle_event e) := by
  refine ⟨rfl, ?_, ?_, fun e v => rfl⟩
  · intro f; cases f <;> decide
  · intro b; cases b <;> decide

end SyscallMonitor
